import Mathlib

/-!
# Verification of the market-data engine of `src/App.tsx`

Shallow embedding of the Ticker Store, Connection Manager, Enrichment
Scheduler, Notification Bus and Virtualized List Renderer of the `spot`
repository.  JavaScript numbers are modelled as `ℚ`, JS `undefined` for
optional record fields as `Option`, the JS `Map` as an association list
with `Map.set` semantics (update-in-place for an existing key, append for
a new one), and the JS `Set` as a duplicate-free list.
-/

set_option maxHeartbeats 1000000

namespace Spot

/-- One row of market state (`TickerData` in `src/App.tsx`).
`changePercent1h/4h/7d/30d` are the optional enrichment fields, `none`
standing for JS `undefined`. -/
structure TickerData where
  symbol : String
  price : ℚ
  volume : ℚ
  changePercent24h : ℚ
  changePercent1h : Option ℚ := none
  changePercent4h : Option ℚ := none
  changePercent7d : Option ℚ := none
  changePercent30d : Option ℚ := none
deriving DecidableEq, Repr

/-- JS `Map` keyed by symbol, as an insertion-ordered association list. -/
abbrev Store := List (String × TickerData)

/-- `map.get(s)`: value at the first matching key, if any. -/
def mapGet (m : Store) (s : String) : Option TickerData :=
  match m with
  | [] => none
  | (k, v) :: rest => if k = s then some v else mapGet rest s

/-- `map.set(s, v)`: replace the value at an existing key in place
(keeping insertion order), or append a fresh entry. -/
def mapSet (m : Store) (s : String) (v : TickerData) : Store :=
  match m with
  | [] => [(s, v)]
  | (k, w) :: rest => if k = s then (k, v) :: rest else (k, w) :: mapSet rest s v

theorem mapGet_mapSet_self (m : Store) (s : String) (v : TickerData) :
    mapGet (mapSet m s v) s = some v := by
  induction m with
  | nil => simp [mapGet, mapSet]
  | cons p rest ih =>
    obtain ⟨k, w⟩ := p
    by_cases h : k = s <;> simp [mapGet, mapSet, h, ih]

theorem mapGet_mapSet_ne (m : Store) (s s' : String) (v : TickerData)
    (h : s ≠ s') : mapGet (mapSet m s v) s' = mapGet m s' := by
  induction m with
  | nil => simp [mapGet, mapSet, h]
  | cons p rest ih =>
    obtain ⟨k, w⟩ := p
    by_cases hk : k = s
    · subst hk
      simp [mapGet, mapSet, h]
    · by_cases hk' : k = s' <;> simp [mapGet, mapSet, hk, hk', ih, Ne.symm h]

theorem mapSet_length_of_mem (m : Store) (s : String) (v : TickerData)
    (h : (mapGet m s).isSome) : (mapSet m s v).length = m.length := by
  induction m with
  | nil => simp [mapGet] at h
  | cons p rest ih =>
    obtain ⟨k, w⟩ := p
    by_cases hk : k = s
    · simp [mapSet, hk]
    · simp [mapGet, hk] at h
      simp [mapSet, hk, ih h]

theorem mapSet_length_of_not_mem (m : Store) (s : String) (v : TickerData)
    (h : mapGet m s = none) : (mapSet m s v).length = m.length + 1 := by
  induction m with
  | nil => simp [mapSet]
  | cons p rest ih =>
    obtain ⟨k, w⟩ := p
    by_cases hk : k = s
    · simp [mapGet, hk] at h
    · simp [mapGet, hk] at h
      simp [mapSet, hk, ih h]

/-- One parsed push-channel delta (`BinanceTickerWS` after `parseFloat`):
symbol `s`, last price `c`, quote volume `q`, 24h change percent `P`. -/
structure Delta where
  s : String
  c : ℚ
  q : ℚ
  P : ℚ
deriving DecidableEq, Repr

/-- The per-item body of the `ws.onmessage` handler in
`BinanceService.connectWebSocket`:
`const existing = this.tickerMap.get(item.s) || { symbol: item.s, price: 0,
volume: 0, changePercent24h: 0 }`, then overwrite `price`, `volume`,
`changePercent24h` with the delta's parsed values and `set` the record
back. -/
def applyDelta (m : Store) (d : Delta) : Store :=
  let existing := (mapGet m d.s).getD
    { symbol := d.s, price := 0, volume := 0, changePercent24h := 0 }
  mapSet m d.s
    { existing with price := d.c, volume := d.q, changePercent24h := d.P }

/-- Outcome of one `fetch(...).then(r => r.ok ? r.json() : null)` chain:
`ok v` is a parsed payload, `nonOk` the `null` produced from a non-OK
response, and `err` a rejected promise (network error / thrown
exception). -/
inductive FetchOutcome (α : Type) where
  | ok (v : α)
  | nonOk
  | err
deriving DecidableEq, Repr

/-- Whether the sub-request rejected (would make `Promise.all` reject). -/
def FetchOutcome.isErr {α : Type} : FetchOutcome α → Bool
  | .err => true
  | _ => false

/-- Resolved network results of one `fetchDetailedStats` call: the 1h and
4h window-ticker sub-requests (their parsed `priceChangePercent`) and the
daily-klines sub-request (the parsed close, field `[4]`, of each kline). -/
structure EnrichResults where
  res1h : FetchOutcome ℚ
  res4h : FetchOutcome ℚ
  klines : FetchOutcome (List ℚ)
deriving DecidableEq, Repr

/-- The kline block of `fetchDetailedStats`: under
`klines.length >= 8`, derive `changePercent7d` from the close at index
`klines.length - 1 - 7` (guarded by `close7d > 0`) and, when
`klines.length - 1 - 30 >= 0`, `changePercent30d` from the close at index
`klines.length - 1 - 30` (guarded by `close30d > 0`). -/
def applyKlines (item : TickerData) (ks : List ℚ) : TickerData :=
  if 8 ≤ ks.length then
    let currentPrice := item.price
    let item7 :=
      match ks.get? (ks.length - 1 - 7) with
      | some close7d =>
        if 0 < close7d then
          { item with changePercent7d := some ((currentPrice - close7d) / close7d * 100) }
        else item
      | none => item
    if 31 ≤ ks.length then
      match ks.get? (ks.length - 1 - 30) with
      | some close30d =>
        if 0 < close30d then
          { item7 with changePercent30d := some ((currentPrice - close30d) / close30d * 100) }
        else item7
      | none => item7
    else item7
  else item

/-- The field writes of the `if (item)` block of `fetchDetailedStats`:
each non-null sub-result writes its own field(s) of the record
(`if (res1h) item.changePercent1h = …`, `if (res4h) …`, then the kline
block). -/
def enrichItem (item : TickerData) (r : EnrichResults) : TickerData :=
  let item1 :=
    match r.res1h with
    | .ok v => { item with changePercent1h := some v }
    | _ => item
  let item4 :=
    match r.res4h with
    | .ok v => { item1 with changePercent4h := some v }
    | _ => item1
  match r.klines with
  | .ok ks => applyKlines item4 ks
  | _ => item4

/-- The `try` block of `fetchDetailedStats` after the awaits resolve.  The
three sub-requests run under nested `Promise.all`, so a rejection of any
one of them rejects the whole `await` and control jumps to the empty
`catch` before any store write; otherwise the looked-up record receives
the per-field writes of `enrichItem` and is `set` back (a symbol absent
from the map is left alone). -/
def applyEnrichOutcomes (m : Store) (symbol : String) (r : EnrichResults) : Store :=
  if r.res1h.isErr || r.res4h.isErr || r.klines.isErr then m
  else
    match mapGet m symbol with
    | none => m
    | some item => mapSet m symbol (enrichItem item r)

/-- State touched by `fetchDetailedStats`: the ticker map and the
`pendingFetches` set (a duplicate-free list). -/
structure SvcState where
  tickerMap : Store
  pendingFetches : List String
deriving DecidableEq, Repr

/-- The synchronous head of `fetchDetailedStats`:
`if (this.pendingFetches.has(symbol)) return;` then
`this.pendingFetches.add(symbol)`.  The boolean reports whether a fetch
actually begins. -/
def startFetch (st : SvcState) (symbol : String) : SvcState × Bool :=
  if symbol ∈ st.pendingFetches then (st, false)
  else ({ st with pendingFetches := symbol :: st.pendingFetches }, true)

/-- The rest of `fetchDetailedStats` once the awaits settle: the
`try`-block store writes followed by the `finally` clause
`this.pendingFetches.delete(symbol)`, which runs on success and on
exception alike. -/
def completeFetch (st : SvcState) (symbol : String) (r : EnrichResults) : SvcState :=
  { tickerMap := applyEnrichOutcomes st.tickerMap symbol r,
    pendingFetches := st.pendingFetches.filter (fun s => s ≠ symbol) }

/-- A whole `fetchDetailedStats(symbol)` call whose sub-requests settle
with outcomes `r`, run to completion with no interleaved mutation. -/
def fetchDetailedStats (st : SvcState) (symbol : String) (r : EnrichResults) : SvcState :=
  match startFetch st symbol with
  | (st', false) => st'
  | (st', true) => completeFetch st' symbol r

/-- `WebSocket.readyState` values that matter to the manager. -/
inductive WsReady where
  | connecting
  | open
  | closing
deriving DecidableEq, Repr

/-- Number of entries of `BASE_WS_URLS` (two fallback endpoints). -/
def numEndpoints : Nat := 2

/-- Connection-manager state of `BinanceService`: the channel handle
(`none` models `this.ws === null`), the failover cursor, the backoff
counter, and the number of `setTimeout(() => this.connectWebSocket(), …)`
callbacks currently scheduled. -/
structure ConnState where
  ws : Option WsReady
  endpointIndex : Nat
  reconnectAttempt : Nat
  pendingReconnects : Nat
deriving DecidableEq, Repr

/-- `connectWebSocket()`: a no-op while the channel is `OPEN` or
`CONNECTING`, otherwise `new WebSocket(BASE_WS_URLS[endpointIndex])`. -/
def connectWebSocket (s : ConnState) : ConnState :=
  if s.ws = some .open ∨ s.ws = some .connecting then s
  else { s with ws := some .connecting }

/-- The `onopen` handler: `this.reconnectAttempt = 0`. -/
def onOpenEvent (s : ConnState) : ConnState :=
  { s with ws := some .open, reconnectAttempt := 0 }

/-- The reconnect delay passed to `setTimeout`:
`Math.min(1000 * 1.5 ** attempt, 10000)`. -/
def reconnectDelay (attempt : Nat) : ℚ :=
  min (1000 * (3 / 2 : ℚ) ^ attempt) 10000

/-- The `onclose` handler: null the handle, advance the endpoint cursor
round-robin, and schedule a reconnect after
`reconnectDelay reconnectAttempt` while post-incrementing the counter.
Returns the new state together with the scheduled delay. -/
def onCloseEvent (s : ConnState) : ConnState × ℚ :=
  ({ s with
      ws := none,
      endpointIndex := (s.endpointIndex + 1) % numEndpoints,
      reconnectAttempt := s.reconnectAttempt + 1,
      pendingReconnects := s.pendingReconnects + 1 },
   reconnectDelay s.reconnectAttempt)

/-- `disconnect()`: `this.ws?.close()` — moves an existing channel to the
`CLOSING` state (its `onclose` handler will still fire) and touches no
other field; with no channel it is a no-op. -/
def disconnect (s : ConnState) : ConnState :=
  match s.ws with
  | none => s
  | some _ => { s with ws := some .closing }

/-- Eligibility predicate of the enrichment scheduler's tick in the `App`
`useEffect`:
`const item = tickerDataMap.get(s); return item &&
(item.changePercent7d === undefined || item.changePercent30d === undefined)`. -/
def missing7dOr30d (m : Store) (s : String) : Bool :=
  match mapGet m s with
  | some item => item.changePercent7d.isNone || item.changePercent30d.isNone
  | none => false

/-- One scheduler tick:
`sortedSymbols.find(s => …)`, the found symbol (if any) being the one
passed to `fetchDetailedStats`. -/
def tickTarget (sortedSymbols : List String) (m : Store) : Option String :=
  sortedSymbols.find? (fun s => missing7dOr30d m s)

/-- The sort fields of the table (`SortField` in `src/App.tsx`). -/
inductive SortField where
  | symbol
  | price
  | volume
  | change1h
  | change4h
  | change24h
  | change7d
  | change30d
deriving DecidableEq, Repr

/-- Sort directions. -/
inductive SortDirection where
  | asc
  | desc
deriving DecidableEq, Repr

/-- A JS value as seen by the comparator: a string, a number, or
`undefined`. -/
inductive JsVal where
  | str (s : String)
  | num (q : ℚ)
  | undef
deriving DecidableEq, Repr

/-- `getVal(obj, field)` of the `sortedData` comparator in
`VirtualTable`. -/
def getVal (o : TickerData) : SortField → JsVal
  | .change1h => (o.changePercent1h.map JsVal.num).getD .undef
  | .change4h => (o.changePercent4h.map JsVal.num).getD .undef
  | .change24h => .num o.changePercent24h
  | .change7d => (o.changePercent7d.map JsVal.num).getD .undef
  | .change30d => (o.changePercent30d.map JsVal.num).getD .undef
  | .symbol => .str o.symbol
  | .price => .num o.price
  | .volume => .num o.volume

/-- The `?? -999999` default applied to both comparator operands. -/
def withSentinel (v : JsVal) : JsVal :=
  match v with
  | .undef => .num (-999999)
  | v => v

/-- `toLowerCase()` on a string operand (identity elsewhere; in the
source the branch only runs on string-typed operands). -/
def lowerVal (v : JsVal) : JsVal :=
  match v with
  | .str s => .str s.toLower
  | v => v

/-- The JS `<` on two comparator operands.  Per sort field both operands
have the same shape (two strings for `symbol`, two numbers otherwise), so
the mixed cases are unreachable; they are given the value `false`. -/
def jsLt : JsVal → JsVal → Bool
  | .num a, .num b => a < b
  | .str a, .str b => a < b
  | _, _ => false

/-- The comparator of `sortedData` in `VirtualTable`: read both values,
default missing ones to `-999999`, lower-case string operands, and return
`-1/1/0` with the sign flipped for descending order. -/
def compareRows (field : SortField) (dir : SortDirection) (a b : TickerData) : Int :=
  let valA0 := withSentinel (getVal a field)
  let valB0 := withSentinel (getVal b field)
  let p :=
    match valA0 with
    | .str sa => (JsVal.str sa.toLower, lowerVal valB0)
    | _ => (valA0, valB0)
  if jsLt p.1 p.2 then (if dir = .asc then -1 else 1)
  else if jsLt p.2 p.1 then (if dir = .asc then 1 else -1)
  else 0

/-- `OVERSCAN` of `VirtualTable` (10 rows; `App.tsx` inlines the same
constant as `- 10` and `+ 20`). -/
def OVERSCAN : ℤ := 10

/-- `startIndex = Math.max(0, Math.floor(scrollTop / ROW_HEIGHT) - OVERSCAN)`. -/
def startIndex (scrollTop rowHeight : ℚ) : ℤ :=
  max 0 (⌊scrollTop / rowHeight⌋ - OVERSCAN)

/-- `visibleCount = Math.ceil(clientHeight / ROW_HEIGHT) + 2 * OVERSCAN`. -/
def visibleCount (clientHeight rowHeight : ℚ) : ℤ :=
  ⌈clientHeight / rowHeight⌉ + 2 * OVERSCAN

/-- `endIndex = Math.min(sortedData.length, startIndex + visibleCount)`
(in `App.tsx` the same clamp is performed by `slice`). -/
def endIndex (len : Nat) (scrollTop clientHeight rowHeight : ℚ) : ℤ :=
  min (len : ℤ) (startIndex scrollTop rowHeight + visibleCount clientHeight rowHeight)

/-- Row `i` of a `len`-row list intersects the viewport
`[scrollTop, scrollTop + clientHeight)`: its top edge `i * rowHeight`
lies above the viewport bottom and its bottom edge `(i+1) * rowHeight`
below the viewport top. -/
def visibleRow (i len : Nat) (scrollTop clientHeight rowHeight : ℚ) : Prop :=
  i < len ∧ (i : ℚ) * rowHeight < scrollTop + clientHeight ∧
    scrollTop < ((i : ℚ) + 1) * rowHeight

/-- Notification-bus state of `BinanceService`: the registered
subscriber callbacks (identified by reference, modelled as naturals, in
registration order) and the ticker map. -/
structure BusState where
  subscribers : List Nat
  tickerMap : Store
deriving DecidableEq, Repr

/-- `subscribe(cb)`: push `cb`, then
`if (this.tickerMap.size > 0) cb(new Map(this.tickerMap))`.  Returns the
new state and the snapshot synchronously delivered to `cb`, if any. -/
def subscribe (st : BusState) (cb : Nat) : BusState × Option Store :=
  ({ st with subscribers := st.subscribers ++ [cb] },
   if st.tickerMap.length > 0 then some st.tickerMap else none)

/-- The unsubscribe closure returned by `subscribe`:
`this.subscribers = this.subscribers.filter(s => s !== cb)`. -/
def unsubscribe (st : BusState) (cb : Nat) : BusState :=
  { st with subscribers := st.subscribers.filter (fun s => s ≠ cb) }

/-!
## Reference-level model of the store and its published snapshots

`notify()` publishes `new Map(this.tickerMap)`: the `Map` structure is
copied but the `TickerData` objects are shared by reference, and both the
`onmessage` handler and `fetchDetailedStats` mutate those objects in
place.  To capture that object identity the store is modelled a second
time with an explicit heap: references are indices into a list of record
objects, the store's `Map` and every published snapshot are lists of
`(symbol, reference)` pairs, and field writes go through the heap.
-/

/-- A reference to a heap-allocated `TickerData` object. -/
abbrev Ref := Nat

/-- A JS `Map` whose values are object references. -/
abbrev RefMap := List (String × Ref)

/-- Heap plus the store's internal `Map`. -/
structure HeapState where
  heap : List TickerData
  tickerMap : RefMap
deriving DecidableEq, Repr

/-- `map.get(s)` on a reference-valued map. -/
def refGet (m : RefMap) (s : String) : Option Ref :=
  match m with
  | [] => none
  | (k, r) :: rest => if k = s then some r else refGet rest s

/-- What a holder of map/snapshot `snap` observes for symbol `s` at a
moment when the heap contents are `heap`: the record object its stored
reference points at. -/
def readRecord (heap : List TickerData) (snap : RefMap) (s : String) : Option TickerData :=
  (refGet snap s).bind (fun r => heap[r]?)

/-- The snapshot produced at publish time by
`const snap = new Map(this.tickerMap)`: a fresh pair list carrying the
same object references. -/
def publishSnapshot (st : HeapState) : RefMap := st.tickerMap

/-- The `onmessage` per-item body at reference level.  For a symbol
already in the map the shared record object is mutated in place through
its reference; for a new symbol a fresh object (the zero default with the
delta's fields immediately written) is allocated and its reference
appended to the map. -/
def heapApplyDelta (st : HeapState) (d : Delta) : HeapState :=
  match refGet st.tickerMap d.s with
  | some r =>
    match st.heap[r]? with
    | some obj =>
      let obj1 := { obj with price := d.c, volume := d.q, changePercent24h := d.P }
      { st with heap := st.heap.set r obj1 }
    | none => st
  | none =>
    { heap := st.heap ++
        [{ symbol := d.s, price := d.c, volume := d.q, changePercent24h := d.P }],
      tickerMap := st.tickerMap ++ [(d.s, st.heap.length)] }

/-- A consumer writing `snapshot.get(s).price = v` through a delivered
snapshot: the write lands on the shared heap object. -/
def consumerSetPrice (heap : List TickerData) (snap : RefMap) (s : String) (v : ℚ) :
    List TickerData :=
  match refGet snap s with
  | some r =>
    match heap[r]? with
    | some obj => heap.set r { obj with price := v }
    | none => heap
  | none => heap

/-- The store writes of `fetchDetailedStats` at reference level: with no
rejected sub-request, `const item = this.tickerMap.get(symbol)` follows
the reference to the shared object, the per-field assignments
(`item.changePercent1h = …`, …, the kline block — `enrichItem`) mutate
that object in place, and `this.tickerMap.set(symbol, item)` re-inserts
the same reference, leaving the map structure unchanged. -/
def heapApplyEnrichment (st : HeapState) (symbol : String) (r : EnrichResults) : HeapState :=
  if r.res1h.isErr || r.res4h.isErr || r.klines.isErr then st
  else
    match refGet st.tickerMap symbol with
    | some ref =>
      match st.heap[ref]? with
      | some item => { st with heap := st.heap.set ref (enrichItem item r) }
      | none => st
    | none => st

/-!
## Theorems
-/

/-- Claim C5: on every channel close the endpoint index advances
round-robin (`(index + 1) mod N` over the fixed endpoint list) and a
reconnect is scheduled after `min(1000 * 1.5^n, 10000)` ms for the
current attempt counter `n`, which increments on each close and resets to
0 on open; the delay sequence is non-decreasing in `n` and never exceeds
10000 ms. -/
theorem onclose_roundRobin_and_capped_backoff :
    (∀ s : ConnState,
        (onCloseEvent s).1.endpointIndex = (s.endpointIndex + 1) % numEndpoints ∧
        (onCloseEvent s).2 = reconnectDelay s.reconnectAttempt ∧
        (onCloseEvent s).1.reconnectAttempt = s.reconnectAttempt + 1) ∧
    (∀ s : ConnState, (onOpenEvent s).reconnectAttempt = 0) ∧
    (∀ n : Nat, reconnectDelay n ≤ reconnectDelay (n + 1)) ∧
    (∀ n : Nat, reconnectDelay n ≤ 10000) := by
  refine ⟨fun s => ⟨rfl, rfl, rfl⟩, fun s => rfl, fun n => ?_, fun n => min_le_right _ _⟩
  have hbase : (1000 : ℚ) * (3 / 2) ^ n ≤ 1000 * (3 / 2) ^ (n + 1) := by
    have hp : ((3 : ℚ) / 2) ^ n ≤ (3 / 2) ^ (n + 1) :=
      pow_le_pow_right₀ (by norm_num) (Nat.le_succ n)
    nlinarith [hp]
  exact min_le_min hbase le_rfl

/-- The initial connection-manager state used to exercise the C2 failing
input: an open channel, no reconnect scheduled. -/
def c2Conn0 : ConnState :=
  { ws := some .open, endpointIndex := 0, reconnectAttempt := 0, pendingReconnects := 0 }

/-- Claim C2: evaluation of the code at the failing input.  `disconnect()`
on an open channel moves it to `CLOSING`; the channel's `onclose` handler
then fires and — having no suppression flag to consult — advances the
endpoint cursor and schedules another `connectWebSocket` via
`setTimeout`, so an automatic reconnect IS scheduled after
`disconnect()`. -/
theorem disconnect_then_close_schedules_reconnect :
    (disconnect c2Conn0).ws = some .closing ∧
    (onCloseEvent (disconnect c2Conn0)).1.pendingReconnects = 1 ∧
    (onCloseEvent (disconnect c2Conn0)).1.endpointIndex = 1 := by
  refine ⟨rfl, rfl, rfl⟩

/-- Record for C3 whose only missing tracked optional field is the 1h
change (4h/7d/30d all present). -/
def c3RecA : TickerData :=
  { symbol := "A", price := 1, volume := 1, changePercent24h := 0,
    changePercent4h := some 1, changePercent7d := some 1, changePercent30d := some 1 }

/-- Record for C3 missing the 1h and 4h changes (7d/30d present). -/
def c3RecB : TickerData :=
  { symbol := "B", price := 1, volume := 1, changePercent24h := 0,
    changePercent7d := some 2, changePercent30d := some 2 }

/-- The C3 store holding those two records. -/
def c3Store : Store := [("A", c3RecA), ("B", c3RecB)]

/-- Claim C3 counterexample: with rank-1 symbol "A" missing only 1h data
and rank-2 symbol "B" missing 1h and 4h data, the tick issues NO fetch at
all (the scan only tests `changePercent7d`/`changePercent30d`), where the
claim demands a fetch for "A". -/
theorem tick_ignores_missing_1h_cex :
    c3RecA.changePercent1h = none ∧
    c3RecB.changePercent1h = none ∧ c3RecB.changePercent4h = none ∧
    tickTarget ["A", "B"] c3Store = none := by decide

/-- Claim C3 (amended): on every scheduler tick the sorted symbol list is
scanned front-to-back and a fetch is issued for exactly the first symbol
present in the map whose record is missing `changePercent7d` or
`changePercent30d` (at most one fetch per tick); a record missing only
1h/4h data is not eligible. -/
theorem tick_fetches_first_missing_7d_or_30d (syms : List String) (m : Store) :
    (∀ t, tickTarget syms m = some t →
        missing7dOr30d m t = true ∧
        ∃ pre post, syms = pre ++ t :: post ∧ ∀ s ∈ pre, missing7dOr30d m s = false) ∧
    (tickTarget syms m = none → ∀ s ∈ syms, missing7dOr30d m s = false) ∧
    (∀ s item, mapGet m s = some item → item.changePercent7d ≠ none →
        item.changePercent30d ≠ none → missing7dOr30d m s = false) := by
  refine ⟨fun t ht => ?_, fun hn s hs => ?_, fun s item hget h7 h30 => ?_⟩
  · obtain ⟨hp, pre, post, hsyms, hpre⟩ := List.find?_eq_some.mp ht
    exact ⟨hp, pre, post, hsyms, fun s hs => by simpa using hpre s hs⟩
  · simpa using List.find?_eq_none.mp hn s hs
  · obtain ⟨x7, hx7⟩ := Option.ne_none_iff_exists'.mp h7
    obtain ⟨x30, hx30⟩ := Option.ne_none_iff_exists'.mp h30
    simp [missing7dOr30d, hget, hx7, hx30]

/-- Claim C3 witness: instantiation of the amended theorem at the
concrete two-row store, where the tick fetches "B" (the first symbol
missing 7d/30d data) once "A" is fully enriched. -/
theorem tick_fetches_first_missing_7d_witness :
    tickTarget ["A", "B"] [("A", c3RecA), ("B", { c3RecB with changePercent7d := none })] =
      some "B" ∧
    (missing7dOr30d [("A", c3RecA), ("B", { c3RecB with changePercent7d := none })] "B" = true ∧
     ∃ pre post, ["A", "B"] = pre ++ "B" :: post ∧
       ∀ s ∈ pre,
         missing7dOr30d [("A", c3RecA), ("B", { c3RecB with changePercent7d := none })] s = false) :=
  ⟨by decide,
   (tick_fetches_first_missing_7d_or_30d ["A", "B"]
      [("A", c3RecA), ("B", { c3RecB with changePercent7d := none })]).1 "B" (by decide)⟩

/-- C4 row with a missing 1h change. -/
def c4RowA : TickerData :=
  { symbol := "AAA", price := 1, volume := 1, changePercent24h := 0 }

/-- C4 row carrying the real 1h value `-1000000`, below the comparator's
`-999999` sentinel. -/
def c4RowB : TickerData :=
  { symbol := "BBB", price := 1, volume := 1, changePercent24h := 0,
    changePercent1h := some (-1000000) }

/-- C4 row carrying the real 1h value `5`. -/
def c4RowC : TickerData :=
  { symbol := "CCC", price := 1, volume := 1, changePercent24h := 0,
    changePercent1h := some 5 }

/-- Claim C4 counterexample: sorting ascending by the 1h change, the row
whose field is missing compares GREATER than the row carrying the real
value `-1000000` (the comparator returns 1, not -1), because missing
fields are replaced by the finite sentinel `-999999` rather than by a
value below every real number. -/
theorem missing_field_not_below_every_value_cex :
    c4RowA.changePercent1h = none ∧
    c4RowB.changePercent1h = some (-1000000) ∧
    compareRows .change1h .asc c4RowA c4RowB = 1 := by decide

/-- Claim C4 (amended): missing optional fields are replaced by the
sentinel `-999999` before comparison, so for every sort field, every
direction and every pair of rows, a row whose field is missing compares
lower than every row carrying a real value strictly greater than
`-999999` (realistic percent values always are); and the string field
compares case-insensitively (rows whose symbols agree up to case compare
equal). -/
theorem comparator_sentinel_and_case_insensitive :
    (∀ (f : SortField) (a b : TickerData) (v : ℚ),
        getVal a f = .undef → getVal b f = .num v → -999999 < v →
        compareRows f .asc a b = -1 ∧ compareRows f .desc a b = 1) ∧
    (∀ (d : SortDirection) (a b : TickerData),
        a.symbol.toLower = b.symbol.toLower → compareRows .symbol d a b = 0) := by
  constructor
  · intro f a b v hA hB hv
    have hlt : jsLt (.num (-999999)) (.num v) = true := by
      simpa [jsLt] using hv
    have hnlt : jsLt (.num v) (.num (-999999)) = false := by
      simp [jsLt]
      linarith
    constructor <;> simp [compareRows, hA, hB, withSentinel, hlt]
  · intro d a b h
    have hirr : ∀ s : String, jsLt (.str s) (.str s) = false := by
      intro s
      simp [jsLt]
    simp [compareRows, getVal, withSentinel, lowerVal, h, hirr]

/-- Claim C4 witness: the amended theorem applied with the 1h field,
missing on the left row, carrying `5 > -999999` on the right row. -/
theorem comparator_sentinel_witness :
    (getVal c4RowA .change1h = .undef ∧ getVal c4RowC .change1h = .num 5 ∧
      (-999999 : ℚ) < 5) ∧
    compareRows .change1h .asc c4RowA c4RowC = -1 ∧
    compareRows .change1h .desc c4RowA c4RowC = 1 :=
  ⟨⟨by decide, by decide, by decide⟩,
   comparator_sentinel_and_case_insensitive.1 .change1h c4RowA c4RowC 5
     (by decide) (by decide) (by decide)⟩

/-- C6 pre-existing record. -/
def c6Rec : TickerData :=
  { symbol := "AAA", price := 1, volume := 2, changePercent24h := 3,
    changePercent1h := some 4 }

/-- C6 store with a single record. -/
def c6Store : Store := [("AAA", c6Rec)]

/-- C6 delta for a symbol not yet in the store, carrying non-zero
values. -/
def c6Delta : Delta := { s := "BBB", c := 5, q := 7, P := 2 }

/-- Claim C6 counterexample: a delta for a symbol not yet in the store
does add a record (the store grows to 2), but the new record carries the
delta's price/volume/24h-change (5/7/2) — not zero values as the claim
states: the zero-valued default is overwritten in the same merge, since
every push delta carries all three fields. -/
theorem new_symbol_delta_not_zero_valued_cex :
    mapGet c6Store "BBB" = none ∧
    (applyDelta c6Store c6Delta).length = 2 ∧
    mapGet (applyDelta c6Store c6Delta) "BBB" =
      some { symbol := "BBB", price := 5, volume := 7, changePercent24h := 2 } ∧
    mapGet (applyDelta c6Store c6Delta) "BBB" ≠
      some { symbol := "BBB", price := 0, volume := 0, changePercent24h := 0 } := by decide

/-- Claim C6 (amended): for every push delta applied, only the price,
volume and changePercent24h fields of the target record are overwritten —
previously-set optional fields are never cleared and other records are
untouched; a delta for a symbol not yet in the store appends one record
built from the zero-valued default whose price/volume/24h-change are
immediately overwritten with the delta's carried values (so after a
500-symbol bootstrap and a delta for a 501st symbol the store holds 501
records, the new one carrying that delta's values). -/
theorem applyDelta_frame_and_create (m : Store) (d : Delta) :
    (∀ r, mapGet m d.s = some r →
        mapGet (applyDelta m d) d.s =
          some { r with price := d.c, volume := d.q, changePercent24h := d.P } ∧
        (applyDelta m d).length = m.length) ∧
    (mapGet m d.s = none →
        mapGet (applyDelta m d) d.s =
          some { symbol := d.s, price := d.c, volume := d.q, changePercent24h := d.P } ∧
        (applyDelta m d).length = m.length + 1) ∧
    (∀ s', s' ≠ d.s → mapGet (applyDelta m d) s' = mapGet m s') := by
  refine ⟨fun r hr => ?_, fun hn => ?_, fun s' hs' => ?_⟩
  · constructor
    · simp [applyDelta, hr, mapGet_mapSet_self]
    · exact mapSet_length_of_mem m d.s _ (by simp [hr])
  · constructor
    · simp [applyDelta, hn, mapGet_mapSet_self]
    · exact mapSet_length_of_not_mem m d.s _ hn
  · exact mapGet_mapSet_ne m d.s s' _ (fun h => hs' h.symm)

/-- Claim C6 witness: the amended theorem applied to the concrete store;
the delta for the existing symbol "AAA" overwrites price/volume/24h while
keeping the previously-set `changePercent1h = some 4`, and leaves the
store size at 1. -/
theorem applyDelta_frame_witness :
    mapGet c6Store "AAA" = some c6Rec ∧
    (mapGet (applyDelta c6Store { s := "AAA", c := 9, q := 8, P := 7 }) "AAA" =
        some { c6Rec with price := 9, volume := 8, changePercent24h := 7 } ∧
     (applyDelta c6Store { s := "AAA", c := 9, q := 8, P := 7 }).length = c6Store.length) :=
  ⟨by decide,
   (applyDelta_frame_and_create c6Store { s := "AAA", c := 9, q := 8, P := 7 }).1
     c6Rec (by decide)⟩

theorem applyKlines_fields (item : TickerData) (ks : List ℚ) :
    (applyKlines item ks).symbol = item.symbol ∧
    (applyKlines item ks).price = item.price ∧
    (applyKlines item ks).volume = item.volume ∧
    (applyKlines item ks).changePercent24h = item.changePercent24h ∧
    (applyKlines item ks).changePercent1h = item.changePercent1h ∧
    (applyKlines item ks).changePercent4h = item.changePercent4h ∧
    (item.changePercent7d.isSome = true → (applyKlines item ks).changePercent7d.isSome = true) ∧
    (item.changePercent30d.isSome = true →
      (applyKlines item ks).changePercent30d.isSome = true) := by
  unfold applyKlines
  repeat' split
  all_goals simp_all

theorem enrichItem_monotone (item : TickerData) (r : EnrichResults) :
    ((enrichItem item r).changePercent1h.isSome = true ∨
      (enrichItem item r).changePercent1h = item.changePercent1h) ∧
    ((enrichItem item r).changePercent4h.isSome = true ∨
      (enrichItem item r).changePercent4h = item.changePercent4h) ∧
    (item.changePercent1h.isSome = true → (enrichItem item r).changePercent1h.isSome = true) ∧
    (item.changePercent4h.isSome = true → (enrichItem item r).changePercent4h.isSome = true) ∧
    (item.changePercent7d.isSome = true → (enrichItem item r).changePercent7d.isSome = true) ∧
    (item.changePercent30d.isSome = true →
      (enrichItem item r).changePercent30d.isSome = true) := by
  obtain ⟨r1, r4, rk⟩ := r
  cases r1 <;> cases r4 <;> cases rk <;>
    simp_all [enrichItem, applyKlines_fields]

/-- C7 record, not yet enriched. -/
def c7Rec : TickerData :=
  { symbol := "A", price := 10, volume := 1, changePercent24h := 0 }

/-- C7 service state holding that record and no pending fetch. -/
def c7St : SvcState := { tickerMap := [("A", c7Rec)], pendingFetches := [] }

/-- C7 sub-request outcomes: 1h succeeds with value 3, 4h rejects
(network error), klines returns non-OK. -/
def c7Res : EnrichResults := { res1h := .ok 3, res4h := .err, klines := .nonOk }

/-- Claim C7 counterexample: the 1h sub-request succeeds and the 4h
sub-request fails with an error (a rejected promise), yet the record's
1h field stays undefined — the rejection of one sub-request makes the
nested `Promise.all` reject, so the sibling success is discarded and the
store is not written at all, where the claim says the succeeding sibling
still updates its field. -/
theorem failing_subrequest_blocks_siblings_cex :
    c7Res.res1h = .ok 3 ∧ c7Res.res4h = .err ∧
    (fetchDetailedStats c7St "A" c7Res).tickerMap = c7St.tickerMap ∧
    (mapGet (fetchDetailedStats c7St "A" c7Res).tickerMap "A").map
      (fun i => i.changePercent1h) = some none := by decide

/-- Claim C7 (amended): enrichment writes each fetched field
independently across the non-OK failure mode only: a non-OK sub-response
leaves its specific field in its prior state (including still-undefined)
while ok siblings still update theirs, and no optional field is ever
overwritten with a missing value; but a rejected sub-request (network
error/exception) aborts every store write of that fetch, leaving all
fields in their prior state.  In all cases the symbol leaves
`pendingFetches`, so a later fetch may be attempted. -/
theorem enrichment_partial_success (st : SvcState) (s : String) (r : EnrichResults) :
    (r.res1h.isErr = true ∨ r.res4h.isErr = true ∨ r.klines.isErr = true →
        (fetchDetailedStats st s r).tickerMap = st.tickerMap) ∧
    (∀ item v, s ∉ st.pendingFetches → mapGet st.tickerMap s = some item →
        r.res1h = .ok v → r.res4h = .nonOk → r.klines = .nonOk →
        mapGet (fetchDetailedStats st s r).tickerMap s =
          some { item with changePercent1h := some v }) ∧
    (∀ item item', mapGet st.tickerMap s = some item →
        mapGet (fetchDetailedStats st s r).tickerMap s = some item' →
        (item.changePercent1h.isSome = true → item'.changePercent1h.isSome = true) ∧
        (item.changePercent4h.isSome = true → item'.changePercent4h.isSome = true) ∧
        (item.changePercent7d.isSome = true → item'.changePercent7d.isSome = true) ∧
        (item.changePercent30d.isSome = true → item'.changePercent30d.isSome = true)) ∧
    (s ∉ st.pendingFetches → s ∉ (fetchDetailedStats st s r).pendingFetches) := by
  refine ⟨fun herr => ?_, fun item v hpend hget h1 h4 hk => ?_,
    fun item item' hget hget' => ?_, fun hpend => ?_⟩
  · by_cases hp : s ∈ st.pendingFetches
    · simp [fetchDetailedStats, startFetch, hp]
    · have : (r.res1h.isErr || r.res4h.isErr || r.klines.isErr) = true := by
        rcases herr with h | h | h <;> simp [h]
      simp [fetchDetailedStats, startFetch, hp, completeFetch, applyEnrichOutcomes, this]
  · simp [fetchDetailedStats, startFetch, hpend, completeFetch, applyEnrichOutcomes,
      h1, h4, hk, FetchOutcome.isErr, hget, enrichItem, mapGet_mapSet_self]
  · by_cases hp : s ∈ st.pendingFetches
    · simp only [fetchDetailedStats, startFetch, hp, if_pos] at hget'
      rw [hget] at hget'
      obtain rfl : item = item' := by injection hget'
      exact ⟨fun h => h, fun h => h, fun h => h, fun h => h⟩
    · simp only [fetchDetailedStats, startFetch, hp, if_neg, ite_false, completeFetch] at hget'
      by_cases herr : (r.res1h.isErr || r.res4h.isErr || r.klines.isErr) = true
      · simp only [applyEnrichOutcomes, herr, if_pos] at hget'
        rw [hget] at hget'
        obtain rfl : item = item' := by injection hget'
        exact ⟨fun h => h, fun h => h, fun h => h, fun h => h⟩
      · rw [applyEnrichOutcomes, if_neg herr, hget, mapGet_mapSet_self] at hget'
        obtain rfl : enrichItem item r = item' := by injection hget'
        have hm := enrichItem_monotone item r
        exact ⟨hm.2.2.1, hm.2.2.2.1, hm.2.2.2.2.1, hm.2.2.2.2.2⟩
  · simp [fetchDetailedStats, startFetch, hpend, completeFetch]

/-- Claim C7 witness: the amended theorem's non-OK clause applied to the
concrete state: 1h succeeds with value 3 while 4h and klines answer
non-OK, and the record ends with `changePercent1h = some 3`, everything
else untouched. -/
theorem enrichment_partial_success_witness :
    ("A" ∉ c7St.pendingFetches ∧ mapGet c7St.tickerMap "A" = some c7Rec) ∧
    mapGet (fetchDetailedStats c7St "A"
        { res1h := .ok 3, res4h := .nonOk, klines := .nonOk }).tickerMap "A" =
      some { c7Rec with changePercent1h := some 3 } :=
  ⟨⟨by decide, by decide⟩,
   (enrichment_partial_success c7St "A"
      { res1h := .ok 3, res4h := .nonOk, klines := .nonOk }).2.1 c7Rec 3
     (by decide) (by decide) (by decide) (by decide) (by decide)⟩

/-- Claim C8: at most one enrichment fetch per symbol is in flight —
`fetchDetailedStats` returns immediately with no side effects when the
symbol is already pending, adds the symbol to the set before the
asynchronous sub-requests begin, and the completion path removes it
unconditionally (whatever the outcomes, success, non-OK or exception),
so the symbol is eligible again afterwards. -/
theorem pendingFetch_at_most_one_in_flight (st : SvcState) (s : String) (r : EnrichResults) :
    (s ∈ st.pendingFetches → fetchDetailedStats st s r = st) ∧
    (s ∉ st.pendingFetches →
        (startFetch st s).2 = true ∧
        s ∈ (startFetch st s).1.pendingFetches ∧
        (startFetch st s).1.tickerMap = st.tickerMap) ∧
    (s ∉ (completeFetch st s r).pendingFetches) ∧
    (s ∉ st.pendingFetches → s ∉ (fetchDetailedStats st s r).pendingFetches) := by
  refine ⟨fun hp => ?_, fun hp => ?_, ?_, fun hp => ?_⟩
  · simp [fetchDetailedStats, startFetch, hp]
  · simp [startFetch, hp]
  · simp [completeFetch]
  · simp [fetchDetailedStats, startFetch, hp, completeFetch]

/-- Claim C8 witness: the guard and the unconditional removal at a
concrete state — a second call for "A" while "A" is pending is a no-op,
and a completed call starting from a free state leaves "A" out of the
pending set. -/
theorem pendingFetch_witness :
    ("A" ∈ (⟨[("A", c7Rec)], ["A"]⟩ : SvcState).pendingFetches ∧
      fetchDetailedStats ⟨[("A", c7Rec)], ["A"]⟩ "A" c7Res = ⟨[("A", c7Rec)], ["A"]⟩) ∧
    ("A" ∉ (c7St : SvcState).pendingFetches ∧
      "A" ∉ (fetchDetailedStats c7St "A" c7Res).pendingFetches) :=
  ⟨⟨by decide,
    (pendingFetch_at_most_one_in_flight ⟨[("A", c7Rec)], ["A"]⟩ "A" c7Res).1 (by decide)⟩,
   ⟨by decide,
    (pendingFetch_at_most_one_in_flight c7St "A" c7Res).2.2.2 (by decide)⟩⟩

/-- Claim C9: the materialized range `[startIndex, endIndex)` of the
virtualized table contains every row intersecting the viewport, and its
width `endIndex - startIndex` never exceeds
`ceil(clientHeight / rowHeight) + 2 * OVERSCAN`, independent of the
dataset length. -/
theorem windowing_contains_visible_and_bounded
    (scrollTop clientHeight rowHeight : ℚ) (len : Nat) (hrh : 0 < rowHeight) :
    (∀ i : Nat, visibleRow i len scrollTop clientHeight rowHeight →
        startIndex scrollTop rowHeight ≤ (i : ℤ) ∧
        (i : ℤ) < endIndex len scrollTop clientHeight rowHeight) ∧
    endIndex len scrollTop clientHeight rowHeight - startIndex scrollTop rowHeight ≤
      visibleCount clientHeight rowHeight := by
  constructor
  · rintro i ⟨hlen, hTop, hBot⟩
    have hfle : ⌊scrollTop / rowHeight⌋ ≤ (i : ℤ) := by
      have h1 : scrollTop / rowHeight < ((i : ℤ) : ℚ) + 1 := by
        rw [div_lt_iff₀ hrh]
        push_cast
        linarith
      have h2 : ⌊scrollTop / rowHeight⌋ < (i : ℤ) + 1 := by
        rw [Int.floor_lt]
        push_cast
        push_cast at h1
        linarith
      omega
    have hiub : (i : ℤ) ≤ ⌊scrollTop / rowHeight⌋ + ⌈clientHeight / rowHeight⌉ := by
      have h1 : (i : ℚ) < scrollTop / rowHeight + clientHeight / rowHeight := by
        rw [← add_div, lt_div_iff₀ hrh]
        linarith
      have h2 : scrollTop / rowHeight < (⌊scrollTop / rowHeight⌋ : ℚ) + 1 :=
        Int.lt_floor_add_one _
      have h3 : clientHeight / rowHeight ≤ (⌈clientHeight / rowHeight⌉ : ℚ) :=
        Int.le_ceil _
      have h4 : (i : ℚ) <
          ((⌊scrollTop / rowHeight⌋ + 1 + ⌈clientHeight / rowHeight⌉ : ℤ) : ℚ) := by
        push_cast
        linarith
      have h5 : (i : ℤ) < ⌊scrollTop / rowHeight⌋ + 1 + ⌈clientHeight / rowHeight⌉ := by
        exact_mod_cast h4
      omega
    constructor
    · have h0 : (0 : ℤ) ≤ (i : ℤ) := Int.natCast_nonneg i
      simp only [startIndex, OVERSCAN]
      omega
    · have hl : (i : ℤ) < (len : ℤ) := by exact_mod_cast hlen
      simp only [startIndex, endIndex, visibleCount, OVERSCAN]
      omega
  · simp only [startIndex, endIndex, visibleCount, OVERSCAN]
    omega

/-- Claim C9 witness: the window theorem at scroll offset 100, viewport
600, row height 48, 1000 rows; row 5 is visible and the theorem places it
inside the materialized range. -/
theorem windowing_witness :
    ((0 : ℚ) < 48 ∧ visibleRow 5 1000 100 600 48) ∧
    (startIndex 100 48 ≤ (5 : ℤ) ∧ (5 : ℤ) < endIndex 1000 100 600 48) :=
  ⟨⟨by norm_num, ⟨by norm_num, by norm_num, by norm_num⟩⟩,
   (windowing_contains_visible_and_bounded 100 600 48 1000 (by norm_num)).1 5
     ⟨by norm_num, by norm_num, by norm_num⟩⟩

/-- Claim C10: `subscribe(cb)` registers `cb` and synchronously delivers
a snapshot of the current store to `cb` if and only if the store is
non-empty at subscription time; the returned unsubscribe closure removes
exactly `cb` — afterwards `cb` is no longer registered, and every other
subscriber keeps its registration count; undoing a fresh subscription
restores the original subscriber list. -/
theorem subscribe_snapshot_iff_and_unsubscribe_exact (st : BusState) (cb : Nat) :
    ((subscribe st cb).2 = some st.tickerMap ↔ st.tickerMap ≠ []) ∧
    ((subscribe st cb).2 = none ↔ st.tickerMap = []) ∧
    cb ∈ (subscribe st cb).1.subscribers ∧
    cb ∉ (unsubscribe st cb).subscribers ∧
    (∀ d, d ≠ cb → (unsubscribe st cb).subscribers.count d = st.subscribers.count d) ∧
    (cb ∉ st.subscribers →
        (unsubscribe (subscribe st cb).1 cb).subscribers = st.subscribers) := by
  refine ⟨?_, ?_, ?_, ?_, fun d hd => ?_, fun hcb => ?_⟩
  · cases h : st.tickerMap <;> simp [subscribe, h]
  · cases h : st.tickerMap <;> simp [subscribe, h]
  · simp [subscribe]
  · simp [unsubscribe]
  · simp only [unsubscribe]
    exact List.count_filter (by simp [hd])
  · simp only [unsubscribe, subscribe, List.filter_append]
    rw [List.filter_eq_self.mpr (fun a ha => by
      simp only [decide_eq_true_eq]
      exact fun h => hcb (h ▸ ha))]
    simp

/-- Claim C10 witness: at a one-subscriber, one-record state, a new
subscriber receives the current snapshot synchronously, and unsubscribing
it restores the original subscriber list. -/
theorem subscribe_witness :
    ((subscribe ⟨[7], c6Store⟩ 9).2 = some c6Store ↔ c6Store ≠ []) ∧
    (9 ∉ ([7] : List Nat) ∧
      (unsubscribe (subscribe ⟨[7], c6Store⟩ 9).1 9).subscribers = [7]) :=
  ⟨(subscribe_snapshot_iff_and_unsubscribe_exact ⟨[7], c6Store⟩ 9).1,
   ⟨by decide,
    (subscribe_snapshot_iff_and_unsubscribe_exact ⟨[7], c6Store⟩ 9).2.2.2.2.2 (by decide)⟩⟩

theorem getElem?_set_of_some {α : Type} (l : List α) (i : Nat) (a x : α)
    (h : l[i]? = some x) : (l.set i a)[i]? = some a := by
  induction l generalizing i with
  | nil => simp at h
  | cons y ys ih =>
    cases i with
    | zero => simp
    | succ j => simpa using ih j (by simpa using h)

theorem refGet_append_of_none (m : RefMap) (s : String) (r : Ref)
    (h : refGet m s = none) : refGet (m ++ [(s, r)]) s = some r := by
  induction m with
  | nil => simp [refGet]
  | cons p rest ih =>
    obtain ⟨k, q⟩ := p
    by_cases hk : k = s
    · simp [refGet, hk] at h
    · simp [refGet, hk] at h ⊢
      exact ih h

/-- C1 record, pre-publish. -/
def c1Rec : TickerData :=
  { symbol := "AAA", price := 1, volume := 2, changePercent24h := 3 }

/-- C1 store state: one record object on the heap, referenced by the
store's map. -/
def c1St : HeapState := { heap := [c1Rec], tickerMap := [("AAA", 0)] }

/-- C1 delta arriving after the snapshot was published. -/
def c1Delta : Delta := { s := "AAA", c := 42, q := 7, P := 9 }

/-- C1 enrichment outcomes arriving after the snapshot was published:
the 1h sub-request succeeds with value 11, the others answer non-OK. -/
def c1Res : EnrichResults := { res1h := .ok 11, res4h := .nonOk, klines := .nonOk }

/-- Claim C1 counterexample: the published snapshot
(`new Map(this.tickerMap)`) is a shallow copy.  At publish time the
snapshot shows price 1 and an undefined 1h change for "AAA"; after a
later push delta mutates the shared record object in place, the SAME
already-delivered snapshot shows price 42; after a later enrichment
write in `fetchDetailedStats`, the same snapshot shows
`changePercent1h = 11`; and a consumer writing price 99 through its
snapshot changes the record the store's own map reads. -/
theorem snapshot_not_independent_cex :
    (readRecord c1St.heap (publishSnapshot c1St) "AAA").map (fun i => i.price) = some 1 ∧
    (readRecord c1St.heap (publishSnapshot c1St) "AAA").map
      (fun i => i.changePercent1h) = some none ∧
    (readRecord (heapApplyDelta c1St c1Delta).heap (publishSnapshot c1St) "AAA").map
      (fun i => i.price) = some 42 ∧
    (readRecord (heapApplyEnrichment c1St "AAA" c1Res).heap (publishSnapshot c1St) "AAA").map
      (fun i => i.changePercent1h) = some (some 11) ∧
    (readRecord (consumerSetPrice c1St.heap (publishSnapshot c1St) "AAA" 99)
        c1St.tickerMap "AAA").map (fun i => i.price) = some 99 := by decide

/-- Claim C1 (amended): every publish delivers a fresh `Map` structure —
so the snapshot's symbol-to-object associations are fixed at publish time
and a symbol first seen by a later delta never appears in an older
snapshot — but the record objects themselves are shared by reference:
a later push delta to an existing symbol, and a later enrichment write of
`fetchDetailedStats`, are visible through every previously delivered
snapshot, and a consumer field write through a snapshot reaches the
record the store itself reads. -/
theorem publish_is_shallow_copy (st : HeapState) (d : Delta) :
    (refGet st.tickerMap d.s = none →
        readRecord (heapApplyDelta st d).heap (publishSnapshot st) d.s = none ∧
        refGet (heapApplyDelta st d).tickerMap d.s = some st.heap.length) ∧
    (∀ r obj, refGet st.tickerMap d.s = some r → st.heap[r]? = some obj →
        readRecord (heapApplyDelta st d).heap (publishSnapshot st) d.s =
          some { obj with price := d.c, volume := d.q, changePercent24h := d.P }) ∧
    (∀ s r obj v, refGet st.tickerMap s = some r → st.heap[r]? = some obj →
        readRecord (consumerSetPrice st.heap (publishSnapshot st) s v) st.tickerMap s =
          some { obj with price := v }) ∧
    (∀ s r obj (res : EnrichResults), refGet st.tickerMap s = some r →
        st.heap[r]? = some obj →
        res.res1h.isErr = false → res.res4h.isErr = false → res.klines.isErr = false →
        readRecord (heapApplyEnrichment st s res).heap (publishSnapshot st) s =
          some (enrichItem obj res)) := by
  refine ⟨fun hn => ⟨?_, ?_⟩, fun r obj hr hobj => ?_, fun s r obj v hr hobj => ?_,
    fun s r obj res hr hobj h1 h4 hk => ?_⟩
  · simp [readRecord, publishSnapshot, hn]
  · simp [heapApplyDelta, hn, refGet_append_of_none st.tickerMap d.s _ hn]
  · simp [heapApplyDelta, hr, hobj, readRecord, publishSnapshot,
      getElem?_set_of_some st.heap r _ obj hobj]
  · simp [consumerSetPrice, publishSnapshot, hr, hobj, readRecord,
      getElem?_set_of_some st.heap r _ obj hobj]
  · simp [heapApplyEnrichment, h1, h4, hk, hr, hobj, readRecord, publishSnapshot,
      getElem?_set_of_some st.heap r _ obj hobj]

/-- Claim C1 witness: the amended theorem at the concrete one-record
state — the post-delta heap read through the pre-delta snapshot yields
the delta-updated record, and the post-enrichment heap read through the
same pre-existing snapshot yields the enriched record (shared object), as
the amended claim states. -/
theorem publish_shallow_copy_witness :
    (refGet c1St.tickerMap "AAA" = some 0 ∧ c1St.heap[0]? = some c1Rec ∧
      c1Res.res1h.isErr = false ∧ c1Res.res4h.isErr = false ∧ c1Res.klines.isErr = false) ∧
    readRecord (heapApplyDelta c1St { s := "AAA", c := 5, q := 6, P := 7 }).heap
        (publishSnapshot c1St) "AAA" =
      some { c1Rec with price := 5, volume := 6, changePercent24h := 7 } ∧
    readRecord (heapApplyEnrichment c1St "AAA" c1Res).heap (publishSnapshot c1St) "AAA" =
      some (enrichItem c1Rec c1Res) :=
  ⟨⟨by decide, by decide, by decide, by decide, by decide⟩,
   (publish_is_shallow_copy c1St { s := "AAA", c := 5, q := 6, P := 7 }).2.1 0 c1Rec
     (by decide) (by decide),
   (publish_is_shallow_copy c1St { s := "AAA", c := 5, q := 6, P := 7 }).2.2.2 "AAA" 0 c1Rec
     c1Res (by decide) (by decide) (by decide) (by decide) (by decide)⟩

end Spot
